import Mathlib

/-!
Verification development for the multi-agent orchestration system.

The embedding models the two orchestration-relevant modules:
* `orchestrator/orchestrator.py` (`LangChainOrchestrator`): the
  `process_message` pipeline, `_execute_plan`, `_needs_replanning`,
  `_summarize_execution_results`, `_format_clarification_questions`.
* `agents/planner_agent.py` (`PlannerAgent`): `analyze_request` (mock and
  LLM paths), `_parse_response`, `refine_plan`, `update_state`.

External collaborators (LLM calls, MCP tools, the extraction/validator
agents, the memory manager) are modelled as oracle functions returning
`Except String _` (an `Except.error` models a raised Python exception).
Python/JSON values are modelled by the `Val` type; Python `dict.get`
with a default is `Val.dgetD`; Python truthiness is `Val.truthy`.
-/

namespace MultiAgent

/-- Model of a Python/JSON value as passed between the agents. -/
inductive Val where
  | null
  | bool (b : Bool)
  | num (n : Int)
  | str (s : String)
  | list (items : List Val)
  | dict (fields : List (String × Val))

/-- Python truthiness of a `Val` (`if result.get("error"):` style tests). -/
def Val.truthy : Val → Bool
  | .null => false
  | .bool b => b
  | .num n => n != 0
  | .str s => !s.isEmpty
  | .list items => !items.isEmpty
  | .dict fields => !fields.isEmpty

/-- `d[k]` lookup on a dict value; `none` when absent or not a dict. -/
def Val.dget : Val → String → Option Val
  | .dict fields, k => fields.lookup k
  | _, _ => none

/-- Python `d.get(k, default)`. -/
def Val.dgetD (v : Val) (k : String) (d : Val) : Val :=
  (v.dget k).getD d

/-- Assignment `d[k] = x` on an association list, keeping key order. -/
def setAssoc : List (String × Val) → String → Val → List (String × Val)
  | [], k, x => [(k, x)]
  | (k0, v0) :: rest, k, x =>
      if k0 = k then (k, x) :: rest else (k0, v0) :: setAssoc rest k x

/-- Python `d[k] = x` on a dict value (identity on non-dicts, unreachable). -/
def Val.dset (v : Val) (k : String) (x : Val) : Val :=
  match v with
  | .dict fields => .dict (setAssoc fields k x)
  | _ => v

/-- Lowercase a string, modelling Python `str.lower()` on ASCII. -/
def strLower (s : String) : String :=
  String.mk (s.toList.map Char.toLower)

/-- `pat` occurs as a contiguous sublist of the second list. -/
def hasSubstr (pat : List Char) : List Char → Bool
  | [] => pat.isEmpty
  | c :: t => pat.isPrefixOf (c :: t) || hasSubstr pat t

/-- Python `sub in s` substring containment. -/
def strContains (s sub : String) : Bool :=
  hasSubstr sub.toList s.toList

/-- Python `s.find(sub, start)`: absolute index of the first occurrence of
`pat` at or after position `i` in the remaining list, else `-1`. -/
def findFrom (pat : List Char) : List Char → Nat → Int
  | [], i => if pat.isEmpty then (i : Int) else -1
  | c :: t, i => if pat.isPrefixOf (c :: t) then (i : Int) else findFrom pat t (i + 1)

/-- Python `s.find(sub, start)` on a char list. -/
def pyFind (hay pat : List Char) (start : Nat) : Int :=
  findFrom pat (hay.drop start) start

/-- Python slice `s[a:b]` where a negative `b` counts from the end. -/
def pySlice (l : List Char) (a : Nat) (b : Int) : List Char :=
  let bn : Nat := if b < 0 then ((l.length : Int) + b).toNat else b.toNat
  (l.take bn).drop a

/-- Python `s.strip()`: drop leading and trailing whitespace. -/
def pyStrip (s : String) : String :=
  String.mk (((s.toList.dropWhile Char.isWhitespace).reverse.dropWhile
    Char.isWhitespace).reverse)

/-- Python `s.startswith(pre)`. -/
def strStartsWith (s pre : String) : Bool :=
  pre.toList.isPrefixOf s.toList

mutual

/-- Python `repr`/`str` rendering of a value, used by f-string interpolation
in `_summarize_execution_results`. -/
def pyRepr : Val → String
  | .null => "None"
  | .bool true => "True"
  | .bool false => "False"
  | .num n => toString n
  | .str s => "\x27" ++ s ++ "\x27"
  | .list items => "[" ++ pyReprList items ++ "]"
  | .dict fields => "\x7b" ++ pyReprFields fields ++ "\x7d"

def pyReprList : List Val → String
  | [] => ""
  | [v] => pyRepr v
  | v :: rest => pyRepr v ++ ", " ++ pyReprList rest

def pyReprFields : List (String × Val) → String
  | [] => ""
  | [(k, v)] => "\x27" ++ k ++ "\x27: " ++ pyRepr v
  | (k, v) :: rest => "\x27" ++ k ++ "\x27: " ++ pyRepr v ++ ", " ++ pyReprFields rest

end

/-! ## Orchestrator data model (`orchestrator/orchestrator.py`) -/

/-- A step dict of a plan's `execution_plan` list.  `_execute_plan` reads the
keys `step`, `agent`, `tool`, `action` and `parameters` via `.get` with the
defaults below; `task_id` and `dependencies` model the extra keys a
planner-produced subtask dict may carry, which `_execute_plan` never reads. -/
structure Step where
  step : Int := 0
  agent : String := ""
  tool : String := ""
  action : String := ""
  parameters : Val := .dict []
  task_id : String := ""
  dependencies : List String := []

/-- The per-step dict appended to `execution_results` by `_execute_plan`:
`step`, `action`, `status` always; `result` on the non-raising path,
`error` when the step raised. -/
structure StepResult where
  step : Int
  action : String
  status : String
  result : Option Val := none
  error : Option String := none

/-- The plan dict as read by `process_message` and `_execute_plan`:
`requires_clarification` (tested for truthiness), `clarification_questions`
and `execution_plan` (read via `.get` with defaults). -/
structure Plan where
  requires_clarification : Val := .null
  clarification_questions : List String := []
  execution_plan : List Step := []

/-- Metadata values stored in `OrchestrationResult.metadata`. -/
inductive MetaVal where
  | bool (b : Bool)
  | str (s : String)
  | plan (p : Plan)
  | results (rs : List StepResult)

/-- `OrchestrationResult` from `orchestrator.py` (defaults as in `__init__`). -/
structure OrchestrationResult where
  success : Bool
  response : String
  metadata : List (String × MetaVal) := []
  executed_steps : List StepResult := []

/-- Observable calls made to external collaborators during one
`process_message` run, recorded in order. -/
inductive Event where
  | memRead
  | planCall
  | replanCall
  | emailCall (tool : String) (params : Val)
  | extractCall (text fields ty : Val)
  | validateCall (data source ty : Val)
  | genResponseCall
  | memWrite

/-- The executors reachable from `_execute_plan`: the MCP email tool,
the extraction agent and the validator agent.  Each may raise. -/
structure Executors where
  email : String → Val → Except String Val
  extract : Val → Val → Val → Except String Val
  validate : Val → Val → Val → Except String Val

/-- The branch dispatch inside `_execute_plan`'s `try` block: email tool when
`tool_name and tool_name.startswith("email")`, extraction agent when
`"extraction" in agent_name.lower()`, validator agent when
`"validator" in agent_name.lower()`, otherwise the unknown-capability
error dict.  Also returns the executor calls performed. -/
def stepBranch (ex : Executors) (s : Step) : Except String Val × List Event :=
  if !s.tool.isEmpty && strStartsWith s.tool "email" then
    (ex.email s.tool s.parameters, [.emailCall s.tool s.parameters])
  else if strContains (strLower s.agent) "extraction" then
    let text := s.parameters.dgetD "text" (.str "")
    let fields := s.parameters.dgetD "fields" (.list [])
    let ty := s.parameters.dgetD "type" (.str "general")
    (ex.extract text fields ty, [.extractCall text fields ty])
  else if strContains (strLower s.agent) "validator" then
    let data := s.parameters.dgetD "data" (.dict [])
    let source := s.parameters.dgetD "source" (.str "")
    let ty := s.parameters.dgetD "type" (.str "general")
    (ex.validate data source ty, [.validateCall data source ty])
  else
    (.ok (.dict [("error", .str ("Unknown agent/tool: " ++ s.agent ++ "/" ++ s.tool))]), [])

/-- The dict appended to `execution_results` for one step: on the non-raising
path the `success`/`failed` dict (status decided by `result.get("error")`
truthiness), on a raised exception the `error` dict. -/
def mkStepResult (s : Step) : Except String Val → StepResult
  | .ok result =>
      { step := s.step, action := s.action,
        status := if (result.dgetD "error" .null).truthy then "failed" else "success",
        result := some result }
  | .error e =>
      { step := s.step, action := s.action, status := "error", error := some e }

/-- One iteration of `_execute_plan`'s loop body: run the branch dispatch and
append the corresponding result dict. -/
def execStepT (ex : Executors) (s : Step) : StepResult × List Event :=
  (mkStepResult s (stepBranch ex s).1, (stepBranch ex s).2)

/-- The step result alone. -/
def execStep (ex : Executors) (s : Step) : StepResult :=
  (execStepT ex s).1

/-- `_execute_plan`: iterate over `execution_plan` in declaration order,
collecting one result per step together with the executor-call trace. -/
def executePlanT (ex : Executors) : List Step → List StepResult × List Event
  | [] => ([], [])
  | s :: rest =>
      let (r, evs) := execStepT ex s
      let (rs, evs2) := executePlanT ex rest
      (r :: rs, evs ++ evs2)

/-- `_needs_replanning`: some step has status `failed` or `error`. -/
def needsReplanning (rs : List StepResult) : Bool :=
  rs.any (fun r => r.status == "failed" || r.status == "error")

/-- The summary line `_summarize_execution_results` builds for one result. -/
def summaryLine (r : StepResult) : String :=
  if r.status = "success" then
    "Step " ++ toString r.step ++ " (" ++ r.action ++ "): " ++
      pyRepr (r.result.getD (.dict []))
  else
    "Step " ++ toString r.step ++ " (" ++ r.action ++ "): Failed - " ++
      r.error.getD "Unknown error"

/-- The `summary_parts` list accumulated by `_summarize_execution_results`. -/
def summaryParts : List StepResult → List String
  | [] => []
  | r :: rest => summaryLine r :: summaryParts rest

/-- `_summarize_execution_results`. -/
def summarizeExecutionResults (rs : List StepResult) : String :=
  String.intercalate "\n" (summaryParts rs)

/-- The numbered-question lines of `_format_clarification_questions`
(`enumerate(questions, 1)`). -/
def numberQuestions : Nat → List String → String
  | _, [] => ""
  | i, q :: rest => toString i ++ ". " ++ q ++ "\n" ++ numberQuestions (i + 1) rest

/-- `_format_clarification_questions`. -/
def formatClarificationQuestions (qs : List String) : String :=
  match qs with
  | [] => "I need more information to help you."
  | [q] => q
  | _ => "I need some clarification:\n" ++ numberQuestions 1 qs

/-- The human-message content `_generate_response` sends to the LLM. -/
def responsePrompt (userMessage : String) (rs : List StepResult) : String :=
  "User Question: \"" ++ userMessage ++ "\"\n\nExecution Results:\n" ++
    summarizeExecutionResults rs ++
    "\n\nGenerate a clear, accurate response for the user."

/-- External collaborators of `process_message`: the memory manager, the
planner agent (`plan` / `replan`), the executors, the response LLM and the
memory writer.  Each call may raise (`Except.error`). -/
structure Collaborators where
  memorySnapshot : Except String Val
  plan : Option Val → Except String Plan
  replan : Plan → List StepResult → Except String Plan
  executors : Executors
  llm : String → Except String String
  addInteraction : String → String → Except String Unit

/-- Tail of `process_message`'s `try` block after execution results are
fixed: generate the response, update memory when enabled, and build the
success result (metadata holds the original plan and the results). -/
def finishBody (c : Collaborators) (enableMemory : Bool) (userMessage : String)
    (plan : Plan) (execResults : List StepResult) (tr : List Event) :
    Except String OrchestrationResult × List Event :=
  match c.llm (responsePrompt userMessage execResults) with
  | .error e => (.error e, tr ++ [.genResponseCall])
  | .ok response =>
      let tr2 := tr ++ [Event.genResponseCall]
      match (if enableMemory then (c.addInteraction userMessage response,
                                   tr2 ++ [Event.memWrite])
             else (.ok (), tr2)) with
      | (.error e, tr3) => (.error e, tr3)
      | (.ok _, tr3) =>
          (.ok { success := true, response := response,
                 metadata := [("plan", .plan plan),
                              ("execution_results", .results execResults)],
                 executed_steps := execResults }, tr3)

/-- Step 1 of `process_message`: the memory snapshot handed to the planner
(`None` when memory is disabled); raises when the memory manager raises. -/
def memSnap (c : Collaborators) (enableMemory : Bool) : Except String (Option Val) :=
  if enableMemory then c.memorySnapshot.map some else .ok none

/-- The trace of step 1 of `process_message`. -/
def memSnapTrace (enableMemory : Bool) : List Event :=
  if enableMemory then [Event.memRead] else []

/-- The body of `process_message`'s `try` block: memory snapshot, planning,
the clarification early return, plan execution, the single conditional
replanning pass, response generation and the memory update. -/
def processBodyT (c : Collaborators) (enableMemory : Bool) (userMessage : String) :
    Except String OrchestrationResult × List Event :=
  let ev0 := memSnapTrace enableMemory
  match memSnap c enableMemory with
  | .error e => (.error e, ev0)
  | .ok snap =>
      match c.plan snap with
      | .error e => (.error e, ev0 ++ [.planCall])
      | .ok plan =>
          let ev1 := ev0 ++ [Event.planCall]
          if plan.requires_clarification.truthy then
            (.ok { success := false,
                   response := formatClarificationQuestions plan.clarification_questions,
                   metadata := [("needs_clarification", .bool true), ("plan", .plan plan)],
                   executed_steps := [] }, ev1)
          else
            let (res1, evE1) := executePlanT c.executors plan.execution_plan
            let ev2 := ev1 ++ evE1
            if needsReplanning res1 then
              match c.replan plan res1 with
              | .error e => (.error e, ev2 ++ [.replanCall])
              | .ok newPlan =>
                  let (res2, evE2) := executePlanT c.executors newPlan.execution_plan
                  finishBody c enableMemory userMessage plan res2
                    (ev2 ++ [.replanCall] ++ evE2)
            else
              finishBody c enableMemory userMessage plan res1 ev2

/-- The result built by `process_message`'s `except` handler. -/
def errorResult (e : String) : OrchestrationResult :=
  { success := false, response := "I encountered an error: " ++ e,
    metadata := [("error", .str e)] }

/-- `process_message` with its observable collaborator-call trace. -/
def processMessageT (c : Collaborators) (enableMemory : Bool)
    (userMessage : String) : OrchestrationResult × List Event :=
  match processBodyT c enableMemory userMessage with
  | (.ok r, tr) => (r, tr)
  | (.error e, tr) => (errorResult e, tr)

/-- `process_message`: the result returned to the caller. -/
def processMessage (c : Collaborators) (enableMemory : Bool)
    (userMessage : String) : OrchestrationResult :=
  (processMessageT c enableMemory userMessage).1

/-- Events that are planner invocations (initial planning or replanning). -/
def isPlanningEvent : Event → Bool
  | .planCall => true
  | .replanCall => true
  | _ => false

/-- Events that are replanning invocations. -/
def isReplanEvent : Event → Bool
  | .replanCall => true
  | _ => false

/-- Events that are executor invocations. -/
def isExecEvent : Event → Bool
  | .emailCall _ _ => true
  | .extractCall _ _ _ => true
  | .validateCall _ _ _ => true
  | _ => false

/-- Number of planning rounds (planner invocations) in a trace. -/
def planningRounds (tr : List Event) : Nat :=
  (tr.filter isPlanningEvent).length

/-! ## Planner agent (`agents/planner_agent.py`) -/

mutual

/-- `json.dumps` rendering of a value, used when `analyze_request` and
`refine_plan` embed the current plan and results into their prompts. -/
def dumps : Val → String
  | .null => "null"
  | .bool true => "true"
  | .bool false => "false"
  | .num n => toString n
  | .str s => "\"" ++ s ++ "\""
  | .list items => "[" ++ dumpsList items ++ "]"
  | .dict fields => "\x7b" ++ dumpsFields fields ++ "\x7d"

def dumpsList : List Val → String
  | [] => ""
  | [v] => dumps v
  | v :: rest => dumps v ++ ", " ++ dumpsList rest

def dumpsFields : List (String × Val) → String
  | [] => ""
  | [(k, v)] => "\"" ++ k ++ "\": " ++ dumps v
  | (k, v) :: rest => "\"" ++ k ++ "\": " ++ dumps v ++ ", " ++ dumpsFields rest

end

/-- The markdown-fence extraction step of `_parse_response`: slice out the
code block after a ` ```json ` or ` ``` ` fence (Python `find` returning -1
when there is no closing fence, hence the `[start:-1]` slice), else strip
the whole text. -/
def extractJsonStr (t : String) : String :=
  let cs := t.toList
  if strContains t "```json" then
    let jstart := (pyFind cs "```json".toList 0 + 7).toNat
    let jend := pyFind cs "```".toList jstart
    pyStrip (String.mk (pySlice cs jstart jend))
  else if strContains t "```" then
    let jstart := (pyFind cs "```".toList 0 + 3).toNat
    let jend := pyFind cs "```".toList jstart
    pyStrip (String.mk (pySlice cs jstart jend))
  else
    pyStrip t

/-- `_parse_response`, with `json.loads` abstracted as `loads` (returning
`none` where Python raises `JSONDecodeError`): parse the extracted block,
fall back to parsing the whole text, and finally return the tagged
`{"error": ..., "raw": ...}` dict. -/
def parseResponse (loads : String → Option Val) (t : String) : Val :=
  match loads (extractJsonStr t) with
  | some v => v
  | none =>
      match loads t with
      | some v => v
      | none => .dict [("error", .str "Failed to parse response"), ("raw", .str t)]

/-- The planner's `global_state` dict entries read and written by
`analyze_request`, `update_state` and `refine_plan` (defaults model the
`.get(key, default)` reads of absent keys). -/
structure PlannerState where
  current_plan : Val := .dict []
  task_results : Val := .dict []
  request : String := ""
  context : Val := .dict []

/-- `update_state`: record a task result under its id. -/
def updateState (st : PlannerState) (taskId : String) (result : Val) : PlannerState :=
  { st with task_results := st.task_results.dset taskId result }

/-- The mock plan built by `analyze_request` when `MOCK_MODE` is set or no
model is configured: a `delay` branch with two tasks (the second depending
on the first), a `capacity`/`crowd` branch with one task, and a generic
fallback with one task. -/
def mockPlan (request : String) : Val :=
  if strContains (strLower request) "delay" then
    .dict [("request_type", .str "delay"), ("priority", .str "medium"),
      ("subtasks", .list [
        .dict [("task_id", .str "1"),
          ("description", .str "Check delay status for train"),
          ("agent", .str "operations"),
          ("dependencies", .list []),
          ("execution_type", .str "sequential"),
          ("inputs", .dict [("train_id",
            .str (if strContains request "12627" then "12627" else "unknown"))])],
        .dict [("task_id", .str "2"),
          ("description", .str "Inform passengers about delay"),
          ("agent", .str "passenger"),
          ("dependencies", .list [.str "1"]),
          ("execution_type", .str "sequential"),
          ("inputs", .dict [("message", .str "Train delayed")])]]),
      ("expected_outcome", .str "Train delay handled and passengers informed.")]
  else if strContains (strLower request) "capacity" ||
          strContains (strLower request) "crowd" then
    .dict [("request_type", .str "capacity"), ("priority", .str "medium"),
      ("subtasks", .list [
        .dict [("task_id", .str "1"),
          ("description", .str "Analyze crowd levels"),
          ("agent", .str "crowd"),
          ("dependencies", .list []),
          ("execution_type", .str "sequential"),
          ("inputs", .dict [("location", .str "station_A")])]]),
      ("expected_outcome", .str "Crowd levels analyzed.")]
  else
    .dict [("request_type", .str "mock"), ("priority", .str "medium"),
      ("subtasks", .list [
        .dict [("task_id", .str "1"),
          ("description", .str "Generic inquiry processing"),
          ("agent", .str "operations"),
          ("dependencies", .list []),
          ("execution_type", .str "sequential"),
          ("inputs", .dict [("query", .str request)])]]),
      ("expected_outcome", .str "Generic request processed.")]

/-- The prompt `analyze_request` sends to the model (content abbreviated to
the parts that vary; the oracle consumes it opaquely). -/
def analyzePrompt (request : String) (context : Val) : String :=
  "You are the Planner Agent - the master brain of a railway intelligence system." ++
    "\nREQUEST: " ++ request ++ "\nCONTEXT: " ++ dumps context

/-- `analyze_request`: the mock branch when mocked or model-less, otherwise
call the model, parse its text, store plan/request/context in the global
state; a raised call is caught and yields the error plan dict. -/
def analyzeRequest (mockMode hasModel : Bool)
    (oracle : String → Except String String) (loads : String → Option Val)
    (st : PlannerState) (request : String) (context : Val) :
    Val × PlannerState :=
  if mockMode || !hasModel then
    (mockPlan request, st)
  else
    match oracle (analyzePrompt request context) with
    | .ok text =>
        let plan := parseResponse loads text
        (plan, { st with current_plan := plan, request := request, context := context })
    | .error e =>
        (.dict [("error", .str e), ("request_type", .str "error"),
                ("subtasks", .list [])], st)

/-- The prompt `refine_plan` sends to the model. -/
def refinePrompt (currentPlan taskResults : Val) (feedback : String) : String :=
  "You are the Planner Agent. Refine the current execution plan based on feedback." ++
    "\nCURRENT PLAN: " ++ dumps currentPlan ++
    "\nTASK RESULTS SO FAR: " ++ dumps taskResults ++
    "\nFEEDBACK: " ++ feedback ++
    "\nOnly include tasks that have not been completed yet."

/-- `refine_plan`: call the model on the refine prompt, parse its text and
store it as the current plan; a raised call is caught and yields the
`{"error": ..., "original_plan": ...}` dict. -/
def refinePlan (oracle : String → Except String String)
    (loads : String → Option Val) (st : PlannerState) (feedback : String) :
    Val × PlannerState :=
  match oracle (refinePrompt st.current_plan st.task_results feedback) with
  | .ok text =>
      let refined := parseResponse loads text
      (refined, { st with current_plan := refined })
  | .error e =>
      (.dict [("error", .str e), ("original_plan", st.current_plan)], st)

/-- The `subtasks` list of a plan dict (empty for non-dicts/absent key). -/
def subtasksOf (v : Val) : List Val :=
  match v.dget "subtasks" with
  | some (.list ts) => ts
  | _ => []

/-- The `task_id` of a subtask dict, when it is a string. -/
def taskIdOf (t : Val) : Option String :=
  match t.dget "task_id" with
  | some (.str s) => some s
  | _ => none

/-- The declared `task_id`s of a plan dict's subtasks. -/
def subtaskIds (v : Val) : List String :=
  (subtasksOf v).filterMap taskIdOf

/-- The `dependencies` of a subtask dict, keeping only string entries. -/
def depsOf (t : Val) : List String :=
  match t.dget "dependencies" with
  | some (.list ds) => ds.filterMap (fun d => match d with | .str s => some s | _ => none)
  | _ => []

/-- The status string recorded for a task id in a `task_results` dict. -/
def taskStatus (taskResults : Val) (id : String) : Option String :=
  match taskResults.dget id with
  | some r =>
      match r.dget "status" with
      | some (.str s) => some s
      | _ => none
  | none => none

/-- Every subtask's dependencies reference only task ids declared earlier
in the list (`seen` accumulates the ids already passed). -/
def depsRespectOrderAux (seen : List String) : List Val → Bool
  | [] => true
  | t :: rest =>
      (depsOf t).all (fun d => seen.contains d) &&
        depsRespectOrderAux (seen ++ (taskIdOf t).toList) rest

/-- Every subtask's dependencies point at earlier-declared tasks. -/
def depsRespectOrder (ts : List Val) : Bool :=
  depsRespectOrderAux [] ts

/-- Modelled from the spec (§4.1): cycle detection on the dependency graph
of a plan's subtask list.  The source contains no such check; this
predicate only states the property the spec claims.  `reachesAux` is
reachability along dependency edges with explicit fuel. -/
def reachesAux (edges : List (String × List String)) :
    Nat → String → String → Bool
  | 0, _, _ => false
  | fuel + 1, src, tgt =>
      match edges.lookup src with
      | none => false
      | some deps =>
          deps.contains tgt || deps.any (fun d => reachesAux edges fuel d tgt)

/-- Modelled from the spec (§4.1): a step list whose `task_id`/`dependencies`
annotations contain a dependency cycle. -/
def hasCycle (steps : List Step) : Bool :=
  let edges := steps.map (fun s => (s.task_id, s.dependencies))
  edges.any (fun e => reachesAux edges edges.length e.1 e.1)

/-! ## Helper lemmas -/

theorem execStepT_snd (ex : Executors) (s : Step) :
    (execStepT ex s).2 = (stepBranch ex s).2 := rfl

theorem execStep_eq (ex : Executors) (s : Step) :
    execStep ex s = mkStepResult s (stepBranch ex s).1 := rfl

/-- `_execute_plan` produces exactly the pointwise step results, in
declaration order. -/
theorem executePlanT_fst (ex : Executors) (steps : List Step) :
    (executePlanT ex steps).1 = steps.map (execStep ex) := by
  induction steps with
  | nil => rfl
  | cons s rest ih => simp [executePlanT, execStep, ih]

/-- The executor-call trace of `_execute_plan` is the concatenation of the
per-step traces, in declaration order. -/
theorem executePlanT_snd (ex : Executors) (steps : List Step) :
    (executePlanT ex steps).2 = (steps.map (fun s => (execStepT ex s).2)).flatten := by
  induction steps with
  | nil => rfl
  | cons s rest ih => simp [executePlanT, ih]

theorem summaryParts_eq_map (rs : List StepResult) :
    summaryParts rs = rs.map summaryLine := by
  induction rs with
  | nil => rfl
  | cons r rest ih => simp [summaryParts, ih]

theorem planningRounds_append (a b : List Event) :
    planningRounds (a ++ b) = planningRounds a + planningRounds b := by
  simp [planningRounds, List.filter_append]

/-- Every event emitted by the branch dispatch is an executor call. -/
theorem stepBranch_trace_exec (ex : Executors) (s : Step) :
    ∀ e ∈ (stepBranch ex s).2, isExecEvent e = true := by
  unfold stepBranch
  split
  · simp [isExecEvent]
  · split
    · simp [isExecEvent]
    · split
      · simp [isExecEvent]
      · simp

theorem isExecEvent_not_planning (e : Event) (h : isExecEvent e = true) :
    isPlanningEvent e = false := by
  cases e <;> simp_all [isExecEvent, isPlanningEvent]

theorem isExecEvent_not_replan (e : Event) (h : isExecEvent e = true) :
    isReplanEvent e = false := by
  cases e <;> simp_all [isExecEvent, isReplanEvent]

/-- Executing a plan performs no planner invocations. -/
theorem executePlanT_filter_planning (ex : Executors) (steps : List Step) :
    (executePlanT ex steps).2.filter isPlanningEvent = [] := by
  induction steps with
  | nil => rfl
  | cons s rest ih =>
      simp only [executePlanT]
      rw [List.filter_append, ih]
      have h0 : (execStepT ex s).2.filter isPlanningEvent = [] := by
        rw [execStepT_snd, List.filter_eq_nil_iff]
        intro e he
        simp [isExecEvent_not_planning e (stepBranch_trace_exec ex s e he)]
      simp [h0]

/-- Executing a plan performs no replanner invocations. -/
theorem executePlanT_filter_replan (ex : Executors) (steps : List Step) :
    (executePlanT ex steps).2.filter isReplanEvent = [] := by
  induction steps with
  | nil => rfl
  | cons s rest ih =>
      simp only [executePlanT]
      rw [List.filter_append, ih]
      have h0 : (execStepT ex s).2.filter isReplanEvent = [] := by
        rw [execStepT_snd, List.filter_eq_nil_iff]
        intro e he
        simp [isExecEvent_not_replan e (stepBranch_trace_exec ex s e he)]
      simp [h0]

/-- Number of replanning passes in a trace. -/
def replanRounds (tr : List Event) : Nat :=
  (tr.filter isReplanEvent).length

theorem replanRounds_append (a b : List Event) :
    replanRounds (a ++ b) = replanRounds a + replanRounds b := by
  simp [replanRounds, List.filter_append]

theorem finishBody_trace (c : Collaborators) (em : Bool) (msg : String)
    (p : Plan) (res : List StepResult) (tr : List Event) :
    (finishBody c em msg p res tr).2.filter isPlanningEvent = tr.filter isPlanningEvent ∧
    (finishBody c em msg p res tr).2.filter isReplanEvent = tr.filter isReplanEvent ∧
    (finishBody c em msg p res tr).2.filter isExecEvent = tr.filter isExecEvent := by
  unfold finishBody
  cases hl : c.llm (responsePrompt msg res) with
  | error e =>
      simp [List.filter_append, isPlanningEvent, isReplanEvent, isExecEvent]
  | ok response =>
      cases em with
      | false =>
          cases ha : c.addInteraction msg response <;>
            simp [List.filter_append, isPlanningEvent, isReplanEvent, isExecEvent]
      | true =>
          cases ha : c.addInteraction msg response <;>
            simp [ha, List.filter_append, isPlanningEvent, isReplanEvent, isExecEvent]

theorem memSnapTrace_counts (em : Bool) :
    (memSnapTrace em).filter isPlanningEvent = [] ∧
    (memSnapTrace em).filter isReplanEvent = [] ∧
    (memSnapTrace em).filter isExecEvent = [] := by
  cases em <;>
    simp [memSnapTrace, isPlanningEvent, isReplanEvent, isExecEvent]

/-- The trace of `process_message` is the trace of its `try` body. -/
theorem processMessageT_trace (c : Collaborators) (em : Bool) (msg : String) :
    (processMessageT c em msg).2 = (processBodyT c em msg).2 := by
  unfold processMessageT
  rcases h : processBodyT c em msg with ⟨r, tr⟩
  cases r <;> rfl

/-- The planner is invoked at most twice per run, the replanner at most
once, whatever the collaborators do. -/
theorem processBodyT_planning_bounds (c : Collaborators) (em : Bool) (msg : String) :
    planningRounds (processBodyT c em msg).2 ≤ 2 ∧
    replanRounds (processBodyT c em msg).2 ≤ 1 := by
  obtain ⟨hm1, hm2, _⟩ := memSnapTrace_counts em
  unfold processBodyT planningRounds replanRounds
  cases hs : memSnap c em with
  | error e => simp [hm1, hm2]
  | ok snap =>
      cases hp : c.plan snap with
      | error e =>
          simp [hp, List.filter_append, hm1, hm2, isPlanningEvent, isReplanEvent]
      | ok plan =>
          simp only [hp]
          by_cases hc : plan.requires_clarification.truthy
          · simp [hc, List.filter_append, hm1, hm2, isPlanningEvent, isReplanEvent]
          · simp only [hc, if_false, Bool.false_eq_true]
            by_cases hr : needsReplanning (executePlanT c.executors plan.execution_plan).1
            · simp only [hr, if_true]
              cases hrp : c.replan plan (executePlanT c.executors plan.execution_plan).1 with
              | error e =>
                  simp [hrp, List.filter_append, hm1, hm2,
                    executePlanT_filter_planning, executePlanT_filter_replan,
                    isPlanningEvent, isReplanEvent]
              | ok newPlan =>
                  simp only [hrp]
                  obtain ⟨hf1, hf2, _⟩ := finishBody_trace c em msg plan
                    (executePlanT c.executors newPlan.execution_plan).1
                    (((memSnapTrace em ++ [Event.planCall]) ++
                        (executePlanT c.executors plan.execution_plan).2) ++
                      [Event.replanCall] ++
                      (executePlanT c.executors newPlan.execution_plan).2)
                  refine ⟨?_, ?_⟩
                  · rw [show ((((memSnapTrace em ++ [Event.planCall]) ++
                        (executePlanT c.executors plan.execution_plan).2) ++
                      [Event.replanCall] ++
                      (executePlanT c.executors newPlan.execution_plan).2)) =
                      (memSnapTrace em ++ [Event.planCall] ++
                        (executePlanT c.executors plan.execution_plan).2 ++
                        [Event.replanCall] ++
                        (executePlanT c.executors newPlan.execution_plan).2) from rfl] at hf1
                    rw [hf1]
                    simp [List.filter_append, hm1, executePlanT_filter_planning,
                      isPlanningEvent]
                  · rw [show ((((memSnapTrace em ++ [Event.planCall]) ++
                        (executePlanT c.executors plan.execution_plan).2) ++
                      [Event.replanCall] ++
                      (executePlanT c.executors newPlan.execution_plan).2)) =
                      (memSnapTrace em ++ [Event.planCall] ++
                        (executePlanT c.executors plan.execution_plan).2 ++
                        [Event.replanCall] ++
                        (executePlanT c.executors newPlan.execution_plan).2) from rfl] at hf2
                    rw [hf2]
                    simp [List.filter_append, hm2, executePlanT_filter_replan,
                      isPlanningEvent, isReplanEvent]
            · simp only [hr, if_false, Bool.false_eq_true]
              obtain ⟨hf1, hf2, _⟩ := finishBody_trace c em msg plan
                (executePlanT c.executors plan.execution_plan).1
                ((memSnapTrace em ++ [Event.planCall]) ++
                  (executePlanT c.executors plan.execution_plan).2)
              refine ⟨?_, ?_⟩
              · rw [hf1]
                simp [List.filter_append, hm1, executePlanT_filter_planning,
                  isPlanningEvent]
              · rw [hf2]
                simp [List.filter_append, hm2, executePlanT_filter_replan,
                  isReplanEvent]

/-! ## Concrete instances used by witnesses and counterexamples -/

/-- Executors that always succeed with an empty dict. -/
def exOk : Executors :=
  { email := fun _ _ => .ok (.dict [])
    extract := fun _ _ _ => .ok (.dict [])
    validate := fun _ _ _ => .ok (.dict []) }

/-- Executors whose extraction agent reports a data error (a truthy
`error` key) and whose email tool raises. -/
def exFail : Executors :=
  { email := fun _ _ => .error "smtp down"
    extract := fun _ _ _ => .ok (.dict [("error", .str "no data")])
    validate := fun _ _ _ => .ok (.dict []) }

/-- Collaborators whose planner raises. -/
def cBoom : Collaborators :=
  { memorySnapshot := .ok .null
    plan := fun _ => .error "boom"
    replan := fun _ _ => .error "boom"
    executors := exOk
    llm := fun _ => .ok "done"
    addInteraction := fun _ _ => .ok () }

/-- A plan that asks for clarification. -/
def clarPlan : Plan :=
  { requires_clarification := .bool true
    clarification_questions := ["Which train?"] }

/-- Collaborators whose planner asks for clarification. -/
def cClar : Collaborators :=
  { memorySnapshot := .ok .null
    plan := fun _ => .ok clarPlan
    replan := fun _ _ => .error "unused"
    executors := exOk
    llm := fun _ => .ok "done"
    addInteraction := fun _ _ => .ok () }

/-- An ordinary one-step extraction plan. -/
def demoPlan : Plan :=
  { execution_plan := [{ step := 1, agent := "extraction", action := "extract totals" }] }

/-- Collaborators whose planner returns `demoPlan` and whose executors
succeed. -/
def cDemo : Collaborators :=
  { memorySnapshot := .ok .null
    plan := fun _ => .ok demoPlan
    replan := fun _ _ => .ok demoPlan
    executors := exOk
    llm := fun _ => .ok "done"
    addInteraction := fun _ _ => .ok () }

/-- A step whose capability tag matches no executor. -/
def stepUnknown : Step :=
  { step := 1, agent := "unknown_capability", action := "do something" }

/-- An extraction step declared as task `1` with no dependencies. -/
def depStep1 : Step :=
  { step := 1, agent := "extraction", action := "a1", task_id := "1" }

/-- An extraction step declared as task `2` depending on task `1`. -/
def depStep2 : Step :=
  { step := 2, agent := "extraction", action := "a2", task_id := "2",
    dependencies := ["1"] }

/-- Two extraction steps whose dependency annotations form a 2-cycle. -/
def cycStep1 : Step :=
  { step := 1, agent := "extraction", action := "c1", task_id := "1",
    dependencies := ["2"] }

def cycStep2 : Step :=
  { step := 2, agent := "extraction", action := "c2", task_id := "2",
    dependencies := ["1"] }

/-- A `json.loads` model that fails on every input. -/
def loadsNone : String → Option Val := fun _ => none

/-- A prior plan with the single subtask `1`. -/
def priorPlan : Val :=
  .dict [("request_type", .str "delay"), ("subtasks", .list [
    .dict [("task_id", .str "1"), ("description", .str "original work")]])]

/-- A replanned plan that re-includes subtask `1`. -/
def replannedPlan : Val :=
  .dict [("request_type", .str "delay"), ("subtasks", .list [
    .dict [("task_id", .str "1"), ("description", .str "redo work")]])]

/-- Planner state after task `1` completed successfully. -/
def stDone : PlannerState :=
  { current_plan := priorPlan
    task_results := .dict [("1", .dict [("status", .str "success")])] }

/-- An LLM oracle that always answers with the fixed text `RESP`. -/
def oracleResp : String → Except String String := fun _ => .ok "RESP"

/-- A `json.loads` model that parses `RESP` to `replannedPlan`. -/
def loadsResp : String → Option Val :=
  fun s => if s = "RESP" then some replannedPlan else none

/-- An LLM oracle that always raises. -/
def oracleBoom : String → Except String String := fun _ => .error "llm down"

/-! ## Claims -/

/-- C1: `process_message` never propagates an exception to its caller:
whenever its `try` body raises `e` — during the memory snapshot, planning,
execution, replanning, response generation or the memory update — the
caller receives the well-formed result with `success = false`, a response
carrying the error message, the error in metadata and no executed steps. -/
theorem processMessage_never_raises (c : Collaborators) (em : Bool)
    (msg : String) (e : String)
    (h : (processBodyT c em msg).1 = .error e) :
    processMessage c em msg =
      { success := false, response := "I encountered an error: " ++ e,
        metadata := [("error", .str e)], executed_steps := [] } := by
  unfold processMessage processMessageT
  rcases hb : processBodyT c em msg with ⟨r, tr⟩
  rw [hb] at h
  simp only at h
  subst h
  rfl

/-- Witness for C1: when the planner raises `boom`, the caller still
receives the well-formed error result. -/
theorem processMessage_never_raises_witness :
    processMessage cBoom false "hello" =
      { success := false, response := "I encountered an error: boom",
        metadata := [("error", .str "boom")], executed_steps := [] } :=
  processMessage_never_raises cBoom false "hello" "boom" rfl

/-- C2: for every collaborator behavior — including executors that always
fail — one `process_message` run performs at most one replanning pass and
at most two planning rounds in total, hence at most `max_iterations + 1`
planning rounds for any `max_iterations ≥ 1`. -/
theorem processMessage_bounded_replanning (c : Collaborators) (em : Bool)
    (msg : String) :
    replanRounds (processMessageT c em msg).2 ≤ 1 ∧
    planningRounds (processMessageT c em msg).2 ≤ 2 ∧
    ∀ maxIterations : Nat, 1 ≤ maxIterations →
      planningRounds (processMessageT c em msg).2 ≤ maxIterations + 1 := by
  obtain ⟨h1, h2⟩ := processBodyT_planning_bounds c em msg
  rw [processMessageT_trace]
  exact ⟨h2, h1, fun m hm => le_trans h1 (by omega)⟩

/-- Witness for C2: with ordinary collaborators the planning rounds stay
within `3 + 1`. -/
theorem processMessage_bounded_replanning_witness :
    planningRounds (processMessageT cDemo true "hi").2 ≤ 3 + 1 :=
  (processMessage_bounded_replanning cDemo true "hi").2.2 3 (by decide)

/-- C3: when the planner asks for clarification, `process_message` returns
immediately with an unsuccessful result carrying the clarification payload
and an empty list of executed steps; no executor is invoked and exactly one
planning round happened. -/
theorem clarification_short_circuits (c : Collaborators) (em : Bool)
    (msg : String) (snap : Option Val) (p : Plan)
    (hs : memSnap c em = .ok snap)
    (hp : c.plan snap = .ok p)
    (hc : p.requires_clarification.truthy = true) :
    processMessage c em msg =
      { success := false,
        response := formatClarificationQuestions p.clarification_questions,
        metadata := [("needs_clarification", .bool true), ("plan", .plan p)],
        executed_steps := [] } ∧
    (processMessageT c em msg).2.filter isExecEvent = [] ∧
    planningRounds (processMessageT c em msg).2 = 1 := by
  have hbody : processBodyT c em msg =
      (.ok { success := false,
             response := formatClarificationQuestions p.clarification_questions,
             metadata := [("needs_clarification", .bool true), ("plan", .plan p)],
             executed_steps := [] }, memSnapTrace em ++ [Event.planCall]) := by
    unfold processBodyT
    simp only [hs, hp, hc, if_true]
  obtain ⟨hm1, _, hm3⟩ := memSnapTrace_counts em
  refine ⟨?_, ?_, ?_⟩
  · unfold processMessage processMessageT
    rw [hbody]
  · rw [processMessageT_trace, hbody]
    simp [List.filter_append, hm3, isExecEvent]
  · rw [processMessageT_trace, hbody]
    simp [planningRounds, List.filter_append, hm1, isPlanningEvent]

/-- Witness for C3: a clarification plan short-circuits the run. -/
theorem clarification_short_circuits_witness :
    processMessage cClar false "book" =
      { success := false, response := "Which train?",
        metadata := [("needs_clarification", .bool true), ("plan", .plan clarPlan)],
        executed_steps := [] } ∧
    (processMessageT cClar false "book").2.filter isExecEvent = [] := by
  obtain ⟨h1, h2, _⟩ :=
    clarification_short_circuits cClar false "book" none clarPlan rfl rfl rfl
  exact ⟨by rw [h1]; rfl, h2⟩

/-- C4 counterexample: a plan whose dependency annotations form a 2-cycle
is not rejected — both of its steps execute and both executor invocations
happen, contradicting the claim that zero executors are invoked. -/
theorem cyclic_plan_still_executes :
    hasCycle [cycStep1, cycStep2] = true ∧
    (executePlanT exFail [cycStep1, cycStep2]).1.length = 2 ∧
    ((executePlanT exFail [cycStep1, cycStep2]).2.filter isExecEvent).length = 2 :=
  ⟨rfl, rfl, rfl⟩

/-- C4 amended: `_execute_plan` performs no structural validation — even a
plan whose dependency graph contains a cycle is executed in full, one
result per declared step in declaration order; no rejection path exists. -/
theorem no_structural_rejection (ex : Executors) (steps : List Step)
    (h : hasCycle steps = true) :
    (executePlanT ex steps).1 = steps.map (execStep ex) ∧
    (executePlanT ex steps).1.length = steps.length :=
  ⟨executePlanT_fst ex steps, by rw [executePlanT_fst]; simp⟩

/-- Witness for the amended C4 at the concrete cyclic plan. -/
theorem no_structural_rejection_witness :
    (executePlanT exOk [cycStep1, cycStep2]).1 =
      [cycStep1, cycStep2].map (execStep exOk) ∧
    (executePlanT exOk [cycStep1, cycStep2]).1.length = 2 :=
  no_structural_rejection exOk [cycStep1, cycStep2] rfl

/-- C5 counterexample: a step whose capability tag matches no executor gets
the per-step status `failed` — not `error` as the claim states — with the
missing capability named inside the result's `error` message. -/
theorem unknown_capability_status_failed_cex :
    (execStep exOk stepUnknown).status = "failed" ∧
    (execStep exOk stepUnknown).status ≠ "error" ∧
    (execStep exOk stepUnknown).result =
      some (.dict [("error", .str "Unknown agent/tool: unknown_capability/")]) :=
  ⟨rfl, by decide, rfl⟩

/-- C5 amended: dispatching a step that matches no executor branch yields
a non-raising `failed` result whose `error` message names the missing
agent/tool, performs no executor call, and leaves every sibling step's
result exactly what it would have been anyway. -/
theorem unknown_capability_failed_result (ex : Executors) (s : Step)
    (h1 : (!s.tool.isEmpty && strStartsWith s.tool "email") = false)
    (h2 : strContains (strLower s.agent) "extraction" = false)
    (h3 : strContains (strLower s.agent) "validator" = false) :
    execStep ex s =
      { step := s.step, action := s.action, status := "failed",
        result := some (.dict [("error",
          .str ("Unknown agent/tool: " ++ s.agent ++ "/" ++ s.tool))]) } ∧
    (execStepT ex s).2 = [] ∧
    ∀ pre post, (executePlanT ex (pre ++ s :: post)).1 =
      pre.map (execStep ex) ++ execStep ex s :: post.map (execStep ex) := by
  have hbr : stepBranch ex s =
      (.ok (.dict [("error",
        .str ("Unknown agent/tool: " ++ s.agent ++ "/" ++ s.tool))]), []) := by
    unfold stepBranch
    simp [h1, h2, h3]
  have hne : ("Unknown agent/tool: " ++ s.agent ++ "/" ++ s.tool).isEmpty = false := by
    rw [Bool.eq_false_iff]
    intro h
    rw [String.isEmpty_iff] at h
    have hd := congrArg String.data h
    simp [String.data_append] at hd
  refine ⟨?_, ?_, ?_⟩
  · rw [execStep_eq, hbr]
    simp [mkStepResult, Val.dgetD, Val.dget, Val.truthy, hne]
  · rw [execStepT_snd, hbr]
  · intro pre post
    rw [executePlanT_fst]
    simp

/-- Witness for the amended C5 at the concrete unknown-capability step. -/
theorem unknown_capability_failed_result_witness :
    execStep exFail stepUnknown =
      { step := 1, action := "do something", status := "failed",
        result := some (.dict [("error",
          .str "Unknown agent/tool: unknown_capability/")]) } :=
  (unknown_capability_failed_result exFail stepUnknown rfl rfl rfl).1

/-- C6 counterexample: task `2` declares a dependency on task `1`, task `1`
finishes with status `failed`, yet task `2` still executes — its executor
is invoked and its result is produced — so a task can start before its
dependencies have status `success`. -/
theorem dependent_runs_after_failed_dependency :
    depStep1.task_id = "1" ∧ depStep2.dependencies = ["1"] ∧
    (execStep exFail depStep1).status = "failed" ∧
    (executePlanT exFail [depStep1, depStep2]).1.map StepResult.status =
      ["failed", "failed"] ∧
    ((executePlanT exFail [depStep1, depStep2]).2.filter isExecEvent).length = 2 :=
  ⟨rfl, rfl, rfl, rfl, rfl⟩

/-- C6 amended: execution strictly follows declaration order — the result
list and the executor-call trace are the per-step ones concatenated in
declaration order — and every mock plan of `analyze_request` declares
dependencies only on earlier-declared tasks, so execution order respects
the declared dependency relation; but a dependency's status is never
checked for `success` before the dependent step runs. -/
theorem execution_in_declaration_order (ex : Executors) (steps : List Step) :
    (executePlanT ex steps).1 = steps.map (execStep ex) ∧
    (executePlanT ex steps).2 = (steps.map (fun s => (execStepT ex s).2)).flatten ∧
    ∀ request : String, depsRespectOrder (subtasksOf (mockPlan request)) = true := by
  refine ⟨executePlanT_fst ex steps, executePlanT_snd ex steps, ?_⟩
  intro request
  unfold mockPlan
  split
  · rfl
  · split
    · rfl
    · rfl

/-- C7 counterexample: with task `1` recorded as `success` in the prior
round, `refine_plan` returns a refined plan that re-includes task `1`:
the replanned subtask set is not restricted to unsuccessful tasks. -/
theorem refine_plan_reincludes_completed_task :
    taskStatus stDone.task_results "1" = some "success" ∧
    subtaskIds (refinePlan oracleResp loadsResp stDone "retry").1 = ["1"] :=
  ⟨rfl, rfl⟩

/-- C7 amended: `refine_plan` returns exactly the parsed model output and
stores it as the current plan; the restriction to unfinished tasks is only
requested in the prompt, never enforced, so the subset property does not
hold in general. -/
theorem refine_plan_passthrough (oracle : String → Except String String)
    (loads : String → Option Val) (st : PlannerState) (feedback txt : String)
    (h : oracle (refinePrompt st.current_plan st.task_results feedback) = .ok txt) :
    (refinePlan oracle loads st feedback).1 = parseResponse loads txt ∧
    (refinePlan oracle loads st feedback).2.current_plan = parseResponse loads txt := by
  unfold refinePlan
  rw [h]
  exact ⟨rfl, rfl⟩

/-- Witness for the amended C7 at the concrete oracle and state. -/
theorem refine_plan_passthrough_witness :
    (refinePlan oracleResp loadsResp stDone "retry").1 =
      parseResponse loadsResp "RESP" :=
  (refine_plan_passthrough oracleResp loadsResp stDone "retry" "RESP" rfl).1

/-- C8 counterexample: a malformed planner response yields the tagged error
dict, which carries no `subtasks` key at all — not the degraded single-task
fallback plan the claim describes — and the exception path of
`analyze_request` yields an error plan with an empty subtask list. -/
theorem malformed_response_no_fallback_plan :
    parseResponse loadsNone "garbage" =
      .dict [("error", .str "Failed to parse response"), ("raw", .str "garbage")] ∧
    (parseResponse loadsNone "garbage").dget "subtasks" = none ∧
    subtaskIds (parseResponse loadsNone "garbage") = [] ∧
    (analyzeRequest false true oracleBoom loadsNone {} "req" (.dict [])).1 =
      .dict [("error", .str "llm down"), ("request_type", .str "error"),
             ("subtasks", .list [])] ∧
    subtaskIds (analyzeRequest false true oracleBoom loadsNone {} "req" (.dict [])).1 = [] :=
  ⟨rfl, rfl, rfl, rfl, rfl⟩

/-- C8 amended: the decode step is total and tagged — for every response
text it returns either a value the JSON parser produced or the explicit
error-tagged dict, never the bare unparsed text as such — and a raised
model call inside `analyze_request` is caught non-fatally, yielding the
error plan with an empty (not single-task) subtask list. -/
theorem parse_response_tagged_total :
    (∀ loads t, (∃ v, (loads (extractJsonStr t) = some v ∨
          (loads (extractJsonStr t) = none ∧ loads t = some v)) ∧
        parseResponse loads t = v) ∨
      (loads (extractJsonStr t) = none ∧ loads t = none ∧
        parseResponse loads t =
          .dict [("error", .str "Failed to parse response"), ("raw", .str t)])) ∧
    (∀ oracle loads st request context e,
      oracle (analyzePrompt request context) = .error e →
      (analyzeRequest false true oracle loads st request context).1 =
        .dict [("error", .str e), ("request_type", .str "error"),
               ("subtasks", .list [])]) := by
  constructor
  · intro loads t
    unfold parseResponse
    cases h1 : loads (extractJsonStr t) with
    | some v => exact .inl ⟨v, .inl rfl, rfl⟩
    | none =>
        cases h2 : loads t with
        | some v => exact .inl ⟨v, .inr ⟨rfl, rfl⟩, rfl⟩
        | none => exact .inr ⟨rfl, rfl, rfl⟩
  · intro oracle loads st request context e h
    unfold analyzeRequest
    simp [h]

/-- Witness for the amended C8: a raising model call yields the tagged
error plan. -/
theorem parse_response_tagged_total_witness :
    (analyzeRequest false true oracleBoom loadsNone {} "r" (.dict [])).1 =
      .dict [("error", .str "llm down"), ("request_type", .str "error"),
             ("subtasks", .list [])] :=
  parse_response_tagged_total.2 oracleBoom loadsNone {} "r" (.dict []) "llm down" rfl

/-- C9: the summary built by `_summarize_execution_results` has exactly one
line per accumulated result, each line a function of that result alone,
joined in the order the results were accumulated — which `_execute_plan`
makes the declaration order — so the lines of any capability group appear
in declaration order regardless of anything else, and no values outside the
accumulated results are read. -/
theorem summary_preserves_declaration_order (ex : Executors)
    (steps : List Step) (rs : List StepResult) (a : String) :
    summaryParts rs = rs.map summaryLine ∧
    summarizeExecutionResults rs = String.intercalate "\n" (rs.map summaryLine) ∧
    (executePlanT ex steps).1.map summaryLine =
      steps.map (fun s => summaryLine (execStep ex s)) ∧
    List.Sublist
      ((steps.filter (fun s => s.agent == a)).map
        (fun s => summaryLine (execStep ex s)))
      ((executePlanT ex steps).1.map summaryLine) := by
  refine ⟨summaryParts_eq_map rs, ?_, ?_, ?_⟩
  · unfold summarizeExecutionResults
    rw [summaryParts_eq_map]
  · rw [executePlanT_fst]
    simp
  · rw [executePlanT_fst]
    simpa using
      List.Sublist.map (fun s => summaryLine (execStep ex s))
        (List.filter_sublist steps)

/-- C10: `_execute_plan` returns exactly one result per declared step, in
declaration order; a step's status is `success` exactly when its branch
returned a result with no truthy `error` key, `failed` exactly when the
`error` key was truthy, and `error` exactly when the branch raised; and a
raising step never prevents later steps from executing. -/
theorem execute_plan_pointwise (ex : Executors) (steps : List Step) :
    (executePlanT ex steps).1.length = steps.length ∧
    (executePlanT ex steps).1 = steps.map (execStep ex) ∧
    (∀ pre s post, (executePlanT ex (pre ++ s :: post)).1 =
        pre.map (execStep ex) ++ execStep ex s :: post.map (execStep ex)) ∧
    ∀ s : Step,
      ((execStep ex s).status = "success" ↔
        ∃ v, (stepBranch ex s).1 = .ok v ∧ (v.dgetD "error" .null).truthy = false) ∧
      ((execStep ex s).status = "failed" ↔
        ∃ v, (stepBranch ex s).1 = .ok v ∧ (v.dgetD "error" .null).truthy = true) ∧
      ((execStep ex s).status = "error" ↔ ∃ e, (stepBranch ex s).1 = .error e) := by
  refine ⟨by rw [executePlanT_fst]; simp, executePlanT_fst ex steps, ?_, ?_⟩
  · intro pre s post
    rw [executePlanT_fst]
    simp
  · intro s
    rw [execStep_eq]
    cases hb : (stepBranch ex s).1 with
    | ok v =>
        by_cases ht : (v.dgetD "error" .null).truthy
        · simp [mkStepResult, ht]
        · simp [mkStepResult, ht]
    | error e => simp [mkStepResult]

end MultiAgent
